import Mathlib

/-!
# Verification of the UREC shift-scheduler core (`src/main.py`)

Shallow embedding of the scheduling core in `src/main.py`:

* `build_candidate_shifts`, `overlaps_unavailability` and the per-worker
  feasibility filter are translated directly as executable functions.
* The CP-SAT constraint model built by `schedule_workers_softmin_hardmax`
  (decision variables, coverage aggregation, hard ceiling, soft floor,
  one-shift-per-worker constraint, work-hour / spread / total variables)
  is embedded as the predicate `Satisfies` over a `Valuation`, which records
  a value for every solver variable.  A solver outcome with status
  `OPTIMAL`/`FEASIBLE` is exactly a valuation satisfying every posted
  constraint and variable domain, so the solver call is modelled by an
  `Option` argument carrying such a valuation.
* Result extraction (lines 158-190 of `src/main.py`) is the function
  `extract_result`.
* The input validation performed by the UI wrapper
  `SchedulerUI.run_scheduler` (lines 483-498) is `run_scheduler_validate`.

Python integers are modelled by `ℤ`; the Python `set` of unavailable hours
is modelled by a `List ℤ` used only through membership.
-/

namespace UREC

/-- A shift is the pair `(start, end)` of hour indices, as in the source. -/
abbrev Shift := ℤ × ℤ

/-- One worker: `{"name": str, "unavailable": set(int)}` from `src/main.py`. -/
structure Employee where
  name : String
  unavailable : List ℤ
deriving DecidableEq

/-- Default employee used for in-range list indexing. -/
def default_employee : Employee := ⟨"", []⟩

/-- Default shift used for in-range list indexing. -/
def default_shift : Shift := (0, 0)

/-- Python `range(lo, hi)` over integers, as a list. -/
def int_range (lo hi : ℤ) : List ℤ :=
  (List.range (hi - lo).toNat).map (fun (i : ℕ) => lo + (i : ℤ))

/-- `build_candidate_shifts` (src/main.py lines 39-45): for every allowed
length `L`, every start in `range(day_start, day_end - L + 1)` yields the
shift `(start, start + L)`. -/
def build_candidate_shifts (day_start_hour day_length_hours : ℤ)
    (allowed_lengths : List ℤ) : List Shift :=
  allowed_lengths.flatMap (fun L =>
    (int_range day_start_hour (day_start_hour + day_length_hours - L + 1)).map
      (fun start => (start, start + L)))

/-- `overlaps_unavailability` (src/main.py lines 48-53): true iff some hour
`h` with `start ≤ h < end` lies in the unavailable set. -/
def overlaps_unavailability (shift : Shift) (unavailable_blocks : List ℤ) : Bool :=
  (int_range shift.1 shift.2).any (fun h => decide (h ∈ unavailable_blocks))

/-- The feasibility filter (src/main.py line 82): keep the shifts that do not
overlap the worker's unavailability. -/
def filter_feasible (all_shifts : List Shift) (unavailable : List ℤ) : List Shift :=
  all_shifts.filter (fun s => !(overlaps_unavailability s unavailable))

/-- Parameters of `schedule_workers_softmin_hardmax` (src/main.py lines 56-64). -/
structure Params where
  day_start_hour : ℤ
  day_length_hours : ℤ
  allowed_shift_lengths : List ℤ
  min_workers_per_hour : ℤ
  max_workers_per_hour : ℤ
  max_one_shift_per_employee : Bool

/-- `hours = list(range(day_start_hour, day_end_hour))` (src/main.py line 75). -/
def hours_list (p : Params) : List ℤ :=
  int_range p.day_start_hour (p.day_start_hour + p.day_length_hours)

/-- The feasible-shift list of one worker (src/main.py lines 79-83). -/
def feasible_for (p : Params) (e : Employee) : List Shift :=
  filter_feasible
    (build_candidate_shifts p.day_start_hour p.day_length_hours p.allowed_shift_lengths)
    e.unavailable

/-- `feasible_shifts`: one feasible list per worker, in input order. -/
def feasible_shifts (employees : List Employee) (p : Params) : List (List Shift) :=
  employees.map (feasible_for p)

/-- A value for every variable of the CP-SAT model: the decision booleans
`x[(e_idx, s_idx)]` and the integer variables created in
src/main.py lines 85-146. -/
structure Valuation where
  x : ℕ → ℕ → Bool
  coverage : ℤ → ℤ
  understaff : ℤ → ℤ
  work_hours : ℕ → ℤ
  max_work : ℤ
  min_work : ℤ
  spread : ℤ
  total_coverage : ℤ
  total_understaff : ℤ

/-- `sum(x[(e_idx, s_idx)] for s_idx in range(len(shifts)))` (line 96). -/
def sel_count (shifts : List Shift) (x : ℕ → Bool) : ℤ :=
  ((List.range shifts.length).map (fun i => if x i then (1 : ℤ) else 0)).sum

/-- The coverage terms of hour `h` (lines 102-110): over every worker and
every index of a feasible shift covering `h`, the decision variable. -/
def cover_terms_sum (feas : List (List Shift)) (x : ℕ → ℕ → Bool) (h : ℤ) : ℤ :=
  ((List.range feas.length).map (fun eIdx =>
    (((List.range (feas.getD eIdx []).length)).map (fun sIdx =>
      let s := (feas.getD eIdx []).getD sIdx default_shift
      if s.1 ≤ h ∧ h < s.2 then (if x eIdx sIdx then (1 : ℤ) else 0) else 0)).sum)).sum

/-- `sum(x[(e_idx, s_idx)] * (shifts[s_idx][1] - shifts[s_idx][0]) ...)`
(lines 124-129). -/
def work_sum (shifts : List Shift) (x : ℕ → Bool) : ℤ :=
  ((List.range shifts.length).map (fun i =>
    if x i then (shifts.getD i default_shift).2 - (shifts.getD i default_shift).1
    else 0)).sum

/-- The `work_hours` variable list, in worker order (lines 121-130). -/
def work_var_list (employees : List Employee) (p : Params) (v : Valuation) : List ℤ :=
  (List.range (feasible_shifts employees p).length).map v.work_hours

/-- Line 94-96: when `max_one_shift_per_employee`, each worker's selected
count is at most 1. -/
def one_shift_constraint (feas : List (List Shift)) (v : Valuation) : Prop :=
  ∀ eIdx ∈ List.range feas.length, sel_count (feas.getD eIdx []) (v.x eIdx) ≤ 1

/-- Lines 98-118: per hour, the coverage variable (domain `[0, len(employees)]`)
equals the sum of covering decision variables, is capped by the hard max, and
the understaff variable (domain `[0, 1000]`) lifts it to the soft min. -/
def coverage_constraints (employees : List Employee) (feas : List (List Shift))
    (hours : List ℤ) (p : Params) (v : Valuation) : Prop :=
  ∀ h ∈ hours,
    v.coverage h = cover_terms_sum feas v.x h ∧
    0 ≤ v.coverage h ∧ v.coverage h ≤ (employees.length : ℤ) ∧
    v.coverage h ≤ p.max_workers_per_hour ∧
    0 ≤ v.understaff h ∧ v.understaff h ≤ 1000 ∧
    p.min_workers_per_hour ≤ v.coverage h + v.understaff h

/-- Lines 120-130: per worker, the work-hours variable (domain `[0, 24]`)
equals the selected-shift length sum. -/
def work_hour_constraints (feas : List (List Shift)) (v : Valuation) : Prop :=
  ∀ eIdx ∈ List.range feas.length,
    v.work_hours eIdx = work_sum (feas.getD eIdx []) (v.x eIdx) ∧
    0 ≤ v.work_hours eIdx ∧ v.work_hours eIdx ≤ 24

/-- Lines 132-138: `AddMaxEquality`/`AddMinEquality` over the work-hour list
(for an empty list the max/min of no expressions is unsatisfiable, matching
CP-SAT's rejection of an empty `lin_max`), and `spread = max_work - min_work`,
all three variables with domain `[0, 24]`. -/
def spread_constraints (employees : List Employee) (p : Params) (v : Valuation) : Prop :=
  (work_var_list employees p v).max? = some v.max_work ∧
  (work_var_list employees p v).min? = some v.min_work ∧
  0 ≤ v.max_work ∧ v.max_work ≤ 24 ∧
  0 ≤ v.min_work ∧ v.min_work ≤ 24 ∧
  v.spread = v.max_work - v.min_work ∧ 0 ≤ v.spread ∧ v.spread ≤ 24

/-- Lines 140-146: `total_coverage` and `total_understaff` (domains
`[0, 10000]`) equal the hourly sums. -/
def totals_constraints (hours : List ℤ) (v : Valuation) : Prop :=
  v.total_coverage = (hours.map v.coverage).sum ∧
  0 ≤ v.total_coverage ∧ v.total_coverage ≤ 10000 ∧
  v.total_understaff = (hours.map v.understaff).sum ∧
  0 ≤ v.total_understaff ∧ v.total_understaff ≤ 10000

/-- A valuation satisfies the model built by
`schedule_workers_softmin_hardmax` iff it satisfies every posted constraint
and every variable domain.  CP-SAT returns `OPTIMAL`/`FEASIBLE` exactly with
such a valuation. -/
def Satisfies (employees : List Employee) (p : Params) (v : Valuation) : Prop :=
  (p.max_one_shift_per_employee = true →
    one_shift_constraint (feasible_shifts employees p) v) ∧
  coverage_constraints employees (feasible_shifts employees p) (hours_list p) p v ∧
  work_hour_constraints (feasible_shifts employees p) v ∧
  spread_constraints employees p v ∧
  totals_constraints (hours_list p) v

instance (employees : List Employee) (p : Params) (v : Valuation) :
    Decidable (Satisfies employees p v) := by
  unfold Satisfies one_shift_constraint coverage_constraints work_hour_constraints
    spread_constraints totals_constraints
  infer_instance

/-- The objective expression of line 149:
`total_understaff * 100000 + spread * 1000 + total_coverage`. -/
def objective_expr (v : Valuation) : ℤ :=
  v.total_understaff * 100000 + v.spread * 1000 + v.total_coverage

/-- Extraction of one worker's chosen shift (lines 160-166): the first
feasible shift whose decision variable is set, else `None`. -/
def chosen_shift (shifts : List Shift) (x : ℕ → Bool) : Option Shift :=
  ((List.range shifts.length).find? (fun i => x i)).map
    (fun i => shifts.getD i default_shift)

/-- One row of the `assignments` list of the result (lines 181-189). -/
structure AssignmentRow where
  employee : String
  shift : Option Shift
  work_hours : ℤ
  unavailable : List ℤ
deriving DecidableEq

/-- Default row used for in-range list indexing. -/
def default_row : AssignmentRow := ⟨"", none, 0, []⟩

/-- The `"status": "ok"` result dictionary (lines 171-190). -/
structure OkResult where
  day_start_hour : ℤ
  day_end_hour : ℤ
  min_workers_per_hour : ℤ
  max_workers_per_hour : ℤ
  fairness_spread : ℤ
  total_understaff : ℤ
  coverage_by_hour : ℤ → ℤ
  understaff_by_hour : ℤ → ℤ
  assignments : List AssignmentRow

/-- Either `{"status": "no_solution"}` or the `"ok"` dictionary. -/
inductive SolveResult where
  | no_solution : SolveResult
  | ok : OkResult → SolveResult

/-- `true` exactly on `"ok"` results. -/
def SolveResult.is_ok : SolveResult → Bool
  | SolveResult.no_solution => false
  | SolveResult.ok _ => true

/-- Result extraction (lines 158-190) from a solver valuation. -/
def extract_result (employees : List Employee) (p : Params) (v : Valuation) :
    OkResult where
  day_start_hour := p.day_start_hour
  day_end_hour := p.day_start_hour + p.day_length_hours
  min_workers_per_hour := p.min_workers_per_hour
  max_workers_per_hour := p.max_workers_per_hour
  fairness_spread := v.spread
  total_understaff := v.total_understaff
  coverage_by_hour := v.coverage
  understaff_by_hour := v.understaff
  assignments := (List.range employees.length).map (fun i =>
    let e := employees.getD i default_employee
    { employee := e.name
      shift := chosen_shift (feasible_for p e) (v.x i)
      work_hours := v.work_hours i
      unavailable := e.unavailable })

/-- `schedule_workers_softmin_hardmax` (lines 56-190).  The solver call is
modelled by `solver_outcome`: `some` of a model-satisfying valuation when
`solver.Solve` returns `OPTIMAL` or `FEASIBLE`, `none` otherwise; the code
then returns `no_solution` or extracts the result. -/
def schedule_workers_softmin_hardmax (employees : List Employee) (p : Params)
    (solver_outcome : Option {v : Valuation // Satisfies employees p v}) :
    SolveResult :=
  match solver_outcome with
  | none => SolveResult.no_solution
  | some vv => SolveResult.ok (extract_result employees p vv.val)

/-- The error dialogs `SchedulerUI.run_scheduler` can raise before calling
the core (lines 483-498). -/
inductive UIError where
  | no_employees : UIError
  | invalid_coverage_negative : UIError
  | invalid_coverage_min_gt_max : UIError
deriving DecidableEq

/-- The validation of `SchedulerUI.run_scheduler` (lines 483-498): reject an
empty worker list, then a negative coverage bound, then `min > max`; the day
start and day length are read but never validated. -/
def run_scheduler_validate (employees : List Employee)
    (day_start day_len min_cov max_cov : ℤ) : Option UIError :=
  if employees.length = 0 then some UIError.no_employees
  else if min_cov < 0 ∨ max_cov < 0 then some UIError.invalid_coverage_negative
  else if min_cov > max_cov then some UIError.invalid_coverage_min_gt_max
  else none

/-! ## Concrete instances used by the witnesses and counterexamples -/

/-- One fully available worker. -/
def demo_emps : List Employee := [⟨"A", []⟩]

/-- A 4-hour day starting at hour 0, one allowed length 4, soft min 1,
hard max 2, one shift per worker. -/
def demo_p : Params := ⟨0, 4, [4], 1, 2, true⟩

/-- The valuation assigning worker 0 the single candidate shift `(0, 4)`. -/
def demo_v : Valuation where
  x := fun _ _ => true
  coverage := fun _ => 1
  understaff := fun _ => 0
  work_hours := fun _ => 4
  max_work := 4
  min_work := 4
  spread := 0
  total_coverage := 4
  total_understaff := 0

/-- The misconfigured day of the C8 counterexample: a 3-hour day whose
allowed shift lengths 4 and 5 both exceed the day length. -/
def nofit_p : Params := ⟨8, 3, [4, 5], 1, 2, true⟩

/-- The all-understaffed valuation: nobody assigned, every hour short. -/
def nofit_v : Valuation where
  x := fun _ _ => false
  coverage := fun _ => 0
  understaff := fun _ => 1
  work_hours := fun _ => 0
  max_work := 0
  min_work := 0
  spread := 0
  total_coverage := 0
  total_understaff := 3

/-- Default parameters of the core (src/main.py lines 58-63). -/
def default_p : Params := ⟨8, 12, [4, 5], 1, 2, true⟩

/-- An arbitrary valuation, used to exhibit unsatisfiability. -/
def zero_v : Valuation := ⟨fun _ _ => false, fun _ => 0, fun _ => 0, fun _ => 0, 0, 0, 0, 0, 0⟩

/-- The list of per-worker work sums over selected shifts, used to state the
fairness claim: worker `i` contributes the sum of `end - start` over the
shifts of their feasible list whose decision variable is set. -/
def work_sums (employees : List Employee) (p : Params) (v : Valuation) : List ℤ :=
  (List.range employees.length).map (fun i =>
    work_sum (feasible_for p (employees.getD i default_employee)) (v.x i))

/-! ## Helper lemmas -/

/-- The one-worker demo model is satisfied by `demo_v`. -/
lemma demo_sat : Satisfies demo_emps demo_p demo_v := by decide

/-- The no-fitting-length model is satisfied by the all-understaffed
valuation `nofit_v`. -/
lemma nofit_sat : Satisfies demo_emps nofit_p nofit_v := by decide

lemma mem_int_range {lo hi a : ℤ} : a ∈ int_range lo hi ↔ lo ≤ a ∧ a < hi := by
  unfold int_range
  constructor
  · intro h
    obtain ⟨i, hmem, heq⟩ := List.mem_map.mp h
    have hlt := List.mem_range.mp hmem
    omega
  · rintro ⟨h1, h2⟩
    exact List.mem_map.mpr ⟨(a - lo).toNat, List.mem_range.mpr (by omega), by omega⟩

lemma mem_build_candidate_shifts {d len : ℤ} {al : List ℤ} {st en : ℤ} :
    (st, en) ∈ build_candidate_shifts d len al ↔
      en - st ∈ al ∧ d ≤ st ∧ en ≤ d + len := by
  simp only [build_candidate_shifts, List.mem_flatMap, List.mem_map, mem_int_range,
    Prod.mk.injEq]
  constructor
  · rintro ⟨L, hL, s, ⟨h1, h2⟩, rfl, rfl⟩
    refine ⟨by simpa using hL, h1, by omega⟩
  · rintro ⟨hL, h1, h2⟩
    exact ⟨en - st, hL, st, ⟨h1, by omega⟩, rfl, by omega⟩

lemma overlaps_iff {s : Shift} {u : List ℤ} :
    overlaps_unavailability s u = true ↔ ∃ h : ℤ, s.1 ≤ h ∧ h < s.2 ∧ h ∈ u := by
  simp only [overlaps_unavailability, List.any_eq_true, mem_int_range,
    decide_eq_true_eq]
  tauto

lemma mem_filter_feasible {shifts : List Shift} {u : List ℤ} {s : Shift} :
    s ∈ filter_feasible shifts u ↔
      s ∈ shifts ∧ overlaps_unavailability s u = false := by
  simp [filter_feasible, List.mem_filter]

lemma length_feasible_shifts (employees : List Employee) (p : Params) :
    (feasible_shifts employees p).length = employees.length := by
  simp [feasible_shifts]

lemma getD_map_of_lt {α β : Type} (l : List α) (f : α → β) (i : ℕ)
    (hi : i < l.length) (d : β) (d' : α) :
    (l.map f).getD i d = f (l.getD i d') := by
  rw [List.getD_eq_getElem?_getD, List.getD_eq_getElem?_getD,
    List.getElem?_map, List.getElem?_eq_getElem hi]
  simp

lemma sum_ite_one_eq_countP {α : Type} (l : List α) (q : α → Bool) :
    (l.map (fun a => if q a then (1 : ℤ) else 0)).sum = (l.countP q : ℤ) := by
  induction l with
  | nil => simp
  | cons a t ih =>
    by_cases h : q a = true <;>
      simp [List.countP_cons, h, ih] <;> push_cast <;> ring

lemma sel_count_eq_countP (shifts : List Shift) (x : ℕ → Bool) :
    sel_count shifts x = ((List.range shifts.length).countP x : ℤ) :=
  sum_ite_one_eq_countP _ _

lemma chosen_shift_mem {shifts : List Shift} {x : ℕ → Bool} {s : Shift}
    (h : chosen_shift shifts x = some s) : s ∈ shifts := by
  simp only [chosen_shift, Option.map_eq_some'] at h
  obtain ⟨i, hfind, rfl⟩ := h
  have hi : i < shifts.length := by
    have := List.mem_range.mp (List.mem_of_find?_eq_some hfind)
    exact this
  rw [List.getD_eq_getElem?_getD, List.getElem?_eq_getElem hi]
  exact List.getElem_mem hi

lemma work_var_list_empty (p : Params) (v : Valuation) :
    work_var_list [] p v = [] := rfl

/-! ## Claims -/

/-- C1: for every invocation of `schedule_workers_softmin_hardmax` that
returns a result with status `ok` (i.e. for every model-satisfying valuation
the solver can return) and every hour `h` in
`[day_start_hour, day_start_hour + day_length_hours)`, the reported
`coverage_by_hour[h]` is at most `max_workers_per_hour`. -/
theorem claim1_hard_max_coverage (employees : List Employee) (p : Params)
    (v : Valuation) (hv : Satisfies employees p v) (h : ℤ)
    (h1 : p.day_start_hour ≤ h) (h2 : h < p.day_start_hour + p.day_length_hours) :
    (extract_result employees p v).coverage_by_hour h ≤
      (extract_result employees p v).max_workers_per_hour := by
  have hc := hv.2.1 h (mem_int_range.mpr ⟨h1, h2⟩)
  exact hc.2.2.2.1

/-- Witness for C1 at the one-worker demo instance, hour 2. -/
theorem claim1_witness :
    (extract_result demo_emps demo_p demo_v).coverage_by_hour 2 ≤
      (extract_result demo_emps demo_p demo_v).max_workers_per_hour :=
  claim1_hard_max_coverage demo_emps demo_p demo_v demo_sat 2 (by decide) (by decide)

/-- C2: in every `ok` result, for every hour of the day, the reported
`coverage_by_hour[h]` plus `understaff_by_hour[h]` is at least
`min_workers_per_hour`, and `understaff_by_hour[h]` is non-negative. -/
theorem claim2_soft_min_coverage (employees : List Employee) (p : Params)
    (v : Valuation) (hv : Satisfies employees p v) (h : ℤ)
    (h1 : p.day_start_hour ≤ h) (h2 : h < p.day_start_hour + p.day_length_hours) :
    (extract_result employees p v).min_workers_per_hour ≤
        (extract_result employees p v).coverage_by_hour h +
          (extract_result employees p v).understaff_by_hour h ∧
      0 ≤ (extract_result employees p v).understaff_by_hour h := by
  have hc := hv.2.1 h (mem_int_range.mpr ⟨h1, h2⟩)
  exact ⟨hc.2.2.2.2.2.2, hc.2.2.2.2.1⟩

/-- Witness for C2 at the one-worker demo instance, hour 0. -/
theorem claim2_witness :
    (extract_result demo_emps demo_p demo_v).min_workers_per_hour ≤
        (extract_result demo_emps demo_p demo_v).coverage_by_hour 0 +
          (extract_result demo_emps demo_p demo_v).understaff_by_hour 0 ∧
      0 ≤ (extract_result demo_emps demo_p demo_v).understaff_by_hour 0 :=
  claim2_soft_min_coverage demo_emps demo_p demo_v demo_sat 0 (by decide) (by decide)

/-- C4: the scalar objective the solver minimizes
(`total_understaff * 100000 + spread * 1000 + total_coverage`, line 149)
equals the sum of the per-hour understaff variables times 100000 plus the
fairness spread times 1000 plus the sum of the per-hour coverage variables
times 1, in every model-satisfying valuation. -/
theorem claim4_objective (employees : List Employee) (p : Params)
    (v : Valuation) (hv : Satisfies employees p v) :
    objective_expr v =
      ((hours_list p).map v.understaff).sum * 100000 + v.spread * 1000 +
        ((hours_list p).map v.coverage).sum * 1 := by
  have ht := hv.2.2.2.2
  unfold objective_expr
  rw [ht.1, ht.2.2.2.1]
  ring

/-- Witness for C4 at the one-worker demo instance. -/
theorem claim4_witness :
    objective_expr demo_v =
      ((hours_list demo_p).map demo_v.understaff).sum * 100000 +
        demo_v.spread * 1000 + ((hours_list demo_p).map demo_v.coverage).sum * 1 :=
  claim4_objective demo_emps demo_p demo_v demo_sat

/-- C3: with `max_one_shift_per_employee` true, in every `ok` result each
worker's count of decision variables set to 1 is 0 or 1, and the per-worker
`shift` field is either `None` or a single `(start, end)` pair. -/
theorem claim3_one_shift_per_worker (employees : List Employee) (p : Params)
    (v : Valuation) (hv : Satisfies employees p v)
    (hone : p.max_one_shift_per_employee = true) (i : ℕ)
    (hi : i < employees.length) :
    ((List.range (feasible_for p (employees.getD i default_employee)).length).countP
          (v.x i) = 0 ∨
        (List.range (feasible_for p (employees.getD i default_employee)).length).countP
          (v.x i) = 1) ∧
      (((extract_result employees p v).assignments.getD i default_row).shift = none ∨
        ∃ st en : ℤ,
          ((extract_result employees p v).assignments.getD i default_row).shift =
            some (st, en)) := by
  constructor
  · have hsel := hv.1 hone i
      (List.mem_range.mpr (by rw [length_feasible_shifts]; exact hi))
    have hg : (feasible_shifts employees p).getD i [] =
        feasible_for p (employees.getD i default_employee) := by
      unfold feasible_shifts
      exact getD_map_of_lt employees (feasible_for p) i hi [] default_employee
    rw [hg, sel_count_eq_countP] at hsel
    omega
  · rcases heq : ((extract_result employees p v).assignments.getD i default_row).shift
      with _ | ⟨st, en⟩
    · exact Or.inl rfl
    · exact Or.inr ⟨st, en, rfl⟩

/-- Witness for C3 at the one-worker demo instance, worker 0 (whose count of
selected shifts is 1). -/
theorem claim3_witness :
    (List.range (feasible_for demo_p (demo_emps.getD 0 default_employee)).length).countP
          (demo_v.x 0) = 0 ∨
      (List.range (feasible_for demo_p (demo_emps.getD 0 default_employee)).length).countP
          (demo_v.x 0) = 1 :=
  (claim3_one_shift_per_worker demo_emps demo_p demo_v demo_sat rfl 0 (by decide)).1

/-- C5: `build_candidate_shifts` returns exactly the pairs
`(start, start + L)` with `L` in the allowed-length list, `start ≥ day_start`
and `start + L ≤ day_start + day_length` (stated as: `(st, en)` is a member
iff `en - st` is an allowed length and the shift lies inside the day); when
no allowed length fits within the day it returns the empty list. -/
theorem claim5_candidate_shifts (d len : ℤ) (al : List ℤ) :
    (∀ st en : ℤ, (st, en) ∈ build_candidate_shifts d len al ↔
        en - st ∈ al ∧ d ≤ st ∧ en ≤ d + len) ∧
      ((∀ L ∈ al, len < L) → build_candidate_shifts d len al = []) := by
  refine ⟨fun st en => mem_build_candidate_shifts, fun hnf => ?_⟩
  by_contra hne
  obtain ⟨⟨st, en⟩, hmem⟩ := List.exists_mem_of_ne_nil _ hne
  obtain ⟨hL, hd, hlen⟩ := mem_build_candidate_shifts.mp hmem
  have := hnf _ hL
  omega

/-- Witness for C5: a 3-hour day fits neither allowed length 4 nor 5, so the
candidate set is empty; and on a 4-hour day with allowed length 4, the shift
`(8, 12)` is generated. -/
theorem claim5_witness :
    build_candidate_shifts 8 3 [4, 5] = [] ∧
      (8, 12) ∈ build_candidate_shifts 8 4 [4] :=
  ⟨(claim5_candidate_shifts 8 3 [4, 5]).2 (by decide),
    ((claim5_candidate_shifts 8 4 [4]).1 8 12).mpr (by decide)⟩

/-- C6: the feasibility filter keeps a shift iff it is a candidate and no
hour `h` with `start ≤ h < end` lies in the worker's unavailable set; a
worker whose unavailability excludes every candidate shift receives an empty
feasible list, and extraction then reports no chosen shift rather than an
error. -/
theorem claim6_feasibility_filter (shifts : List Shift) (u : List ℤ) :
    (∀ s : Shift, s ∈ filter_feasible shifts u ↔
        s ∈ shifts ∧ ∀ h : ℤ, s.1 ≤ h → h < s.2 → h ∉ u) ∧
      ((∀ s ∈ shifts, overlaps_unavailability s u = true) →
        filter_feasible shifts u = [] ∧
          ∀ x : ℕ → Bool, chosen_shift (filter_feasible shifts u) x = none) := by
  have hchar : ∀ s : Shift, overlaps_unavailability s u = false ↔
      ∀ h : ℤ, s.1 ≤ h → h < s.2 → h ∉ u := by
    intro s
    rw [← Bool.not_eq_true, overlaps_iff]
    push_neg
    constructor
    · intro hno h hh1 hh2
      exact hno h hh1 hh2
    · intro hno h hh1 hh2
      exact hno h hh1 hh2
  constructor
  · intro s
    rw [mem_filter_feasible]
    exact and_congr_right fun _ => hchar s
  · intro hall
    have hempty : filter_feasible shifts u = [] := by
      rw [List.eq_nil_iff_forall_not_mem]
      intro s hs
      obtain ⟨hmem, hov⟩ := mem_filter_feasible.mp hs
      rw [hall s hmem] at hov
      simp at hov
    refine ⟨hempty, fun x => ?_⟩
    rw [hempty]
    rfl

/-- Witness for C6: with unavailability at hour 10, the one-candidate list
`[(8, 12)]` filters to the empty list and no shift is chosen. -/
theorem claim6_witness :
    filter_feasible [(8, 12)] [10] = [] ∧
      chosen_shift (filter_feasible [(8, 12)] [10]) (fun _ => true) = none :=
  ⟨((claim6_feasibility_filter [(8, 12)] [10]).2 (by decide)).1,
    ((claim6_feasibility_filter [(8, 12)] [10]).2 (by decide)).2 (fun _ => true)⟩

/-- C7: in every `ok` result, `fairness_spread` equals the maximum minus the
minimum over all workers of the worker's total assigned work hours, where a
worker's work hours are the sum of `end - start` over their selected shifts
(`work_sums`); a worker with an empty feasible list reports 0 work hours. -/
theorem claim7_fairness_spread (employees : List Employee) (p : Params)
    (v : Valuation) (hv : Satisfies employees p v) (M m : ℤ)
    (hM : (work_sums employees p v).max? = some M)
    (hm : (work_sums employees p v).min? = some m) :
    (extract_result employees p v).fairness_spread = M - m ∧
      ∀ i : ℕ, i < employees.length →
        feasible_for p (employees.getD i default_employee) = [] →
        ((extract_result employees p v).assignments.getD i default_row).work_hours
          = 0 := by
  have hwc := hv.2.2.1
  have hlist : work_var_list employees p v = work_sums employees p v := by
    unfold work_var_list work_sums
    rw [length_feasible_shifts]
    apply List.map_congr_left
    intro i himem
    have hi : i < employees.length := List.mem_range.mp himem
    have hw := (hwc i (List.mem_range.mpr (by rw [length_feasible_shifts]; exact hi))).1
    rw [hw]
    congr 1
    unfold feasible_shifts
    exact getD_map_of_lt employees (feasible_for p) i hi [] default_employee
  have hsp := hv.2.2.2.1
  constructor
  · have hM2 := hsp.1
    have hm2 := hsp.2.1
    rw [hlist, hM] at hM2
    rw [hlist, hm] at hm2
    have : (extract_result employees p v).fairness_spread =
        v.max_work - v.min_work := hsp.2.2.2.2.2.2.1
    rw [this, ← Option.some.inj hM2, ← Option.some.inj hm2]
  · intro i hi hfe
    have hrow : ((extract_result employees p v).assignments.getD i default_row) =
        (fun j : ℕ =>
          let e := employees.getD j default_employee
          ({ employee := e.name
             shift := chosen_shift (feasible_for p e) (v.x j)
             work_hours := v.work_hours j
             unavailable := e.unavailable } : AssignmentRow)) i := by
      have hri : (List.range employees.length).getD i 0 = i := by
        rw [List.getD_eq_getElem?_getD, List.getElem?_range hi]
        rfl
      show ((List.range employees.length).map _).getD i default_row = _
      rw [getD_map_of_lt (List.range employees.length) _ i
        (by rw [List.length_range]; exact hi) default_row 0, hri]
    rw [hrow]
    have hw := (hwc i (List.mem_range.mpr (by rw [length_feasible_shifts]; exact hi))).1
    have hg : (feasible_shifts employees p).getD i [] =
        feasible_for p (employees.getD i default_employee) := by
      unfold feasible_shifts
      exact getD_map_of_lt employees (feasible_for p) i hi [] default_employee
    show v.work_hours i = 0
    rw [hw, hg, hfe]
    rfl

/-- Witness for C7 at the one-worker demo instance: the only work sum is 4,
so the spread is 0. -/
theorem claim7_witness :
    (extract_result demo_emps demo_p demo_v).fairness_spread = 4 - 4 :=
  (claim7_fairness_spread demo_emps demo_p demo_v demo_sat 4 4
    (by decide) (by decide)).1

/-- C10: in every `ok` result, a reported non-`None` shift comes from that
worker's own feasibility-filtered list: it overlaps none of the worker's
unavailable hours, lies within the day, and its length is an allowed shift
length. -/
theorem claim10_reported_shift_feasible (employees : List Employee) (p : Params)
    (v : Valuation) (hv : Satisfies employees p v) (row : AssignmentRow)
    (hrow : row ∈ (extract_result employees p v).assignments) (st en : ℤ)
    (hs : row.shift = some (st, en)) :
    (∃ e ∈ employees, row.employee = e.name ∧ row.unavailable = e.unavailable ∧
        (st, en) ∈ feasible_for p e) ∧
      overlaps_unavailability (st, en) row.unavailable = false ∧
      p.day_start_hour ≤ st ∧ en ≤ p.day_start_hour + p.day_length_hours ∧
      en - st ∈ p.allowed_shift_lengths := by
  obtain ⟨i, himem, hroweq⟩ := List.mem_map.mp hrow
  have hi : i < employees.length := List.mem_range.mp himem
  subst hroweq
  simp only at hs ⊢
  have hfeas : (st, en) ∈ feasible_for p (employees.getD i default_employee) :=
    chosen_shift_mem hs
  obtain ⟨hbuild, hov⟩ := mem_filter_feasible.mp hfeas
  obtain ⟨hL, hd, hlen⟩ := mem_build_candidate_shifts.mp hbuild
  have he : employees.getD i default_employee ∈ employees := by
    rw [List.getD_eq_getElem?_getD, List.getElem?_eq_getElem hi]
    exact List.getElem_mem hi
  exact ⟨⟨employees.getD i default_employee, he, rfl, rfl, hfeas⟩, hov, hd, hlen, hL⟩

/-- Witness for C10 at the one-worker demo instance: the reported shift
`(0, 4)` of worker `A`. -/
theorem claim10_witness :
    (∃ e ∈ demo_emps,
        (⟨"A", some (0, 4), 4, []⟩ : AssignmentRow).employee = e.name ∧
        (⟨"A", some (0, 4), 4, []⟩ : AssignmentRow).unavailable = e.unavailable ∧
        ((0 : ℤ), (4 : ℤ)) ∈ feasible_for demo_p e) ∧
      overlaps_unavailability (0, 4)
        (⟨"A", some (0, 4), 4, []⟩ : AssignmentRow).unavailable = false ∧
      demo_p.day_start_hour ≤ 0 ∧
      4 ≤ demo_p.day_start_hour + demo_p.day_length_hours ∧
      (4 : ℤ) - 0 ∈ demo_p.allowed_shift_lengths :=
  claim10_reported_shift_feasible demo_emps demo_p demo_v demo_sat
    ⟨"A", some (0, 4), 4, []⟩ (by decide) 0 4 rfl

/-- C8 counterexample: the configuration `day_length = 3`,
`allowed_lengths = (4, 5)` is invalid in the claim's sense (no allowed
length fits the day, as the empty candidate set shows), yet
`run_scheduler_validate` accepts it, the core builds the model, and the solve
returns an `ok` result — fully understaffed — instead of rejecting the
configuration before model construction. -/
theorem claim8_counterexample :
    run_scheduler_validate demo_emps 8 3 1 2 = none ∧
      build_candidate_shifts nofit_p.day_start_hour nofit_p.day_length_hours
        nofit_p.allowed_shift_lengths = [] ∧
      (schedule_workers_softmin_hardmax demo_emps nofit_p
          (some ⟨nofit_v, nofit_sat⟩)).is_ok = true ∧
      (extract_result demo_emps nofit_p nofit_v).total_understaff = 3 :=
  ⟨rfl, by decide, rfl, rfl⟩

/-- C8 (amended): only the coverage-bound misconfigurations are rejected —
for a non-empty worker list, a negative coverage bound or
`min_workers_per_hour > max_workers_per_hour` makes
`SchedulerUI.run_scheduler` raise an error dialog before the core is
invoked.  A non-positive day length or an allowed-length set with no
fitting value is not validated anywhere. -/
theorem claim8_coverage_bounds_rejected (employees : List Employee)
    (day_start day_len min_cov max_cov : ℤ) (hne : employees ≠ [])
    (hbad : min_cov < 0 ∨ max_cov < 0 ∨ min_cov > max_cov) :
    run_scheduler_validate employees day_start day_len min_cov max_cov =
        some UIError.invalid_coverage_negative ∨
      run_scheduler_validate employees day_start day_len min_cov max_cov =
        some UIError.invalid_coverage_min_gt_max := by
  have hlen : ¬ employees.length = 0 := by
    simpa [List.length_eq_zero] using hne
  unfold run_scheduler_validate
  rw [if_neg hlen]
  by_cases hneg : min_cov < 0 ∨ max_cov < 0
  · rw [if_pos hneg]
    exact Or.inl rfl
  · rw [if_neg hneg, if_pos (by omega)]
    exact Or.inr rfl

/-- Witness for the amended C8: one worker, `min = 3 > max = 2`. -/
theorem claim8_witness :
    run_scheduler_validate demo_emps 8 12 3 2 =
        some UIError.invalid_coverage_negative ∨
      run_scheduler_validate demo_emps 8 12 3 2 =
        some UIError.invalid_coverage_min_gt_max :=
  claim8_coverage_bounds_rejected demo_emps 8 12 3 2 (by decide)
    (Or.inr (Or.inr (by decide)))

/-- C9 counterexample: with zero workers, the UI rejects, but the core
itself performs no zero-worker check: called directly it still enumerates
the 17 candidate shifts of the default day and reaches the solve step,
whose model is unsatisfiable (the max-equality over an empty work-hour
list), so it returns the post-solve status `no_solution` rather than
rejecting before model construction. -/
theorem claim9_counterexample :
    run_scheduler_validate [] 8 12 1 2 = some UIError.no_employees ∧
      (build_candidate_shifts default_p.day_start_hour default_p.day_length_hours
          default_p.allowed_shift_lengths).length = 17 ∧
      schedule_workers_softmin_hardmax [] default_p none =
        SolveResult.no_solution ∧
      ¬ Satisfies [] default_p zero_v :=
  ⟨rfl, by decide, rfl, by decide⟩

/-- C9 (amended): zero workers are rejected by the UI wrapper
`SchedulerUI.run_scheduler` before the core is invoked; the core performs no
zero-worker check and, called directly, returns `no_solution` for every
possible solver outcome, because its model admits no satisfying valuation. -/
theorem claim9_zero_workers (day_start day_len min_cov max_cov : ℤ)
    (p : Params) (o : Option {v : Valuation // Satisfies [] p v}) :
    run_scheduler_validate [] day_start day_len min_cov max_cov =
        some UIError.no_employees ∧
      schedule_workers_softmin_hardmax [] p o = SolveResult.no_solution := by
  refine ⟨rfl, ?_⟩
  match o with
  | none => rfl
  | some ⟨v, hv⟩ =>
    exfalso
    have hmax := hv.2.2.2.1.1
    rw [work_var_list_empty] at hmax
    simp at hmax

/-- Witness for the amended C9 at the default parameters. -/
theorem claim9_witness :
    run_scheduler_validate [] 8 12 1 2 = some UIError.no_employees ∧
      schedule_workers_softmin_hardmax [] default_p none =
        SolveResult.no_solution :=
  claim9_zero_workers 8 12 1 2 default_p none

end UREC
